import Mathlib

/-!
Shallow embedding of the heterogeneous memory layer in
`src/src/utilities/memory.c` (hypre's memory management utilities).

Modelling conventions, fixed once for the whole file:

* `hypre_MemoryLocation` and `HYPRE_ExecutionPolicy` are the C enums,
  including their `*_UNDEFINED` sentinels.
* The process-wide handle reads (`hypre_HandleDefaultExecPolicy`,
  `HYPRE_USING_GPU || HYPRE_USING_DEVICE_OPENMP` build selection, backend
  allocator success) are passed as explicit parameters (`dflt`, `gpu`,
  `allocOk`, `reallocOk`), since they are configuration the C code reads
  through `hypre_handle()` or fixes at build time.
* We embed the performance build (`HYPRE_DEBUG` off): `hypre_assert`
  expands to nothing and `hypre_CheckMemoryLocation` is a no-op, exactly
  as the preprocessor erases them; the spec (§7) likewise describes the
  build in which debug assertions are compiled out.  `hypre_MPI_Abort` is
  real termination and is modelled by the `Outcome.aborted` result.
* Memory is a heap of whole blocks keyed by a nonzero address
  (`0` plays the role of the C `NULL`); a byte is `Option Nat`,
  `none` standing for an uninitialized byte.  Diagnostics (out-of-memory
  message, "Unrecognized hypre_MemoryLocation", the null-copy warning)
  and backend invocations are recorded as an event trace so that
  "reports a diagnostic containing the size", "performs no copy" and
  "never reaches a backend allocator" are statable.
* The conceptual→physical resolution `hypre_GetActualMemLocation` (defined
  in a header outside this file) is a pure function of build configuration,
  so the wrappers `hypre_MAlloc`/`hypre_Free`/`hypre_Memcpy` factor through
  the physical location; all functions here are modelled at the physical
  `hypre_MemoryLocation` level, matching the `_core` routines.
-/

namespace Hypre

/-- The `hypre_MemoryLocation` enum: physical memory spaces, plus the
`hypre_MEMORY_UNDEFINED` sentinel. -/
inductive hypre_MemoryLocation where
  | undefined
  | host
  | hostPinned
  | device
  | unified
deriving DecidableEq, Repr, Fintype

/-- The `HYPRE_ExecutionPolicy` enum: `HYPRE_EXEC_UNDEFINED`,
`HYPRE_EXEC_HOST`, `HYPRE_EXEC_DEVICE`. -/
inductive HYPRE_ExecutionPolicy where
  | undefined
  | host
  | device
deriving DecidableEq, Repr, Fintype

/-- The four transfer primitives the copy engine dispatches to:
plain `memcpy`, device-to-device, host-to-device and device-to-host. -/
inductive CopyKind where
  | localCopy
  | deviceToDevice
  | hostToDevice
  | deviceToHost
deriving DecidableEq, Repr, Fintype

/-- Observable events of a run: backend invocations, diagnostics, and the
`hypre_MPI_Abort` call. -/
inductive Event where
  | backendAlloc (loc : hypre_MemoryLocation) (size : Nat) (zeroinit : Bool)
  | backendFree (ptr : Nat) (loc : hypre_MemoryLocation)
  | backendRealloc (ptr : Nat) (size : Nat)
  | transfer (kind : CopyKind) (dst src size : Nat)
  | warnNullCopy (size : Nat)
  | oomDiagnostic (size : Nat)
  | wrongLocationDiag
  | hostOnlyReallocDiag
  | mpiAbort
deriving DecidableEq, Repr

/-- True exactly on the copy-engine transfer events. -/
def Event.isTransfer : Event → Bool
  | .transfer _ _ _ _ => true
  | _ => false

/-- True exactly on backend allocation events. -/
def Event.isAlloc : Event → Bool
  | .backendAlloc _ _ _ => true
  | _ => false

/-- An allocated block: its physical location and its bytes
(`none` = uninitialized byte). -/
structure Block where
  loc : hypre_MemoryLocation
  data : List (Option Nat)
deriving DecidableEq, Repr

/-- The heap: an association list of live blocks keyed by address, and a
high-water mark `next` (all live addresses are `≤ next`, fresh addresses
are `next + 1`, so an address is never `0` = `NULL`). -/
structure Heap where
  blocks : List (Nat × Block)
  next : Nat
deriving DecidableEq, Repr

/-- First block stored under address `p`. -/
def findBlock : List (Nat × Block) → Nat → Option Block
  | [], _ => none
  | q :: qs, p => if q.1 = p then some q.2 else findBlock qs p

/-- Remove every block stored under address `p`. -/
def removeEntry : List (Nat × Block) → Nat → List (Nat × Block)
  | [], _ => []
  | q :: qs, p => if q.1 = p then removeEntry qs p else q :: removeEntry qs p

/-- Overwrite the block stored under address `p`. -/
def setEntry : List (Nat × Block) → Nat → Block → List (Nat × Block)
  | [], _, _ => []
  | q :: qs, p, b => if q.1 = p then (p, b) :: setEntry qs p b else q :: setEntry qs p b

/-- Look up the block at address `p`. -/
def Heap.lookup (h : Heap) (p : Nat) : Option Block :=
  findBlock h.blocks p

/-- Deallocate the block at address `p`. -/
def Heap.removeBlock (h : Heap) (p : Nat) : Heap :=
  { h with blocks := removeEntry h.blocks p }

/-- Overwrite the block at address `p`. -/
def Heap.setBlock (h : Heap) (p : Nat) (b : Block) : Heap :=
  { h with blocks := setEntry h.blocks p b }

/-- Heap well-formedness: every live address is at most the high-water mark. -/
def Heap.wf (h : Heap) : Prop :=
  ∀ q ∈ h.blocks, q.1 ≤ h.next

instance (h : Heap) : Decidable h.wf := by
  unfold Heap.wf; infer_instance

/-- Raw byte transfer: the first `n` bytes of the block at `src` overwrite
the first `n` bytes of the block at `dst` (the semantics shared by
`memcpy`, `cudaMemcpy`, `omp_target_memcpy`, ... in the source). -/
def copyBytes (h : Heap) (dst src : Nat) (n : Nat) : Heap :=
  match h.lookup src, h.lookup dst with
  | some bs, some bd => h.setBlock dst ⟨bd.loc, bs.data.take n ++ bd.data.drop n⟩
  | _, _ => h

/-- Result of an operation: a normal return carrying a value, or process
termination (`hypre_MPI_Abort`). -/
inductive Outcome (α : Type) where
  | ok (val : α)
  | aborted
deriving DecidableEq, Repr

/-- `hypre_GetExecPolicy1_core` (memory.c:816-842).  `gpu` is the
`HYPRE_USING_GPU || HYPRE_USING_DEVICE_OPENMP` build flag guarding the
`hypre_MEMORY_UNIFIED` case; `dflt` is
`hypre_HandleDefaultExecPolicy(hypre_handle())`.  The `default:` branch of
the `switch` reports a wrong-location diagnostic and leaves `exec` at
`HYPRE_EXEC_UNDEFINED`, which in the performance build is then returned
(the `hypre_assert(exec != HYPRE_EXEC_UNDEFINED)` is compiled out). -/
def hypre_GetExecPolicy1_core (gpu : Bool) (dflt : HYPRE_ExecutionPolicy) :
    hypre_MemoryLocation → HYPRE_ExecutionPolicy
  | .host => .host
  | .hostPinned => .host
  | .device => .device
  | .unified => if gpu then dflt else .undefined
  | .undefined => .undefined

/-- `hypre_GetExecPolicy2_core` (memory.c:845-896), translated
assignment-by-assignment: `HOST_PINNED` is first remapped to `HOST`, and
then five successive un-`else`d `if`s each overwrite `exec`, so a later
assignment overrides an earlier one whenever both guards hold. -/
def hypre_GetExecPolicy2_core (gpu : Bool) (dflt : HYPRE_ExecutionPolicy)
    (location1 location2 : hypre_MemoryLocation) : HYPRE_ExecutionPolicy :=
  let l1 := if location1 = .hostPinned then .host else location1
  let l2 := if location2 = .hostPinned then .host else location2
  let exec := HYPRE_ExecutionPolicy.undefined
  let exec := if (l1 = .host ∧ l2 = .device) ∨ (l2 = .host ∧ l1 = .device) then
      HYPRE_ExecutionPolicy.undefined else exec
  let exec := if (l1 = .unified ∧ l2 = .device) ∨ (l2 = .unified ∧ l1 = .device) then
      HYPRE_ExecutionPolicy.undefined else exec
  let exec := if l1 = .unified ∧ l2 = .unified then
      (if gpu then dflt else exec) else exec
  let exec := if l1 = .host ∨ l2 = .host then HYPRE_ExecutionPolicy.host else exec
  let exec := if l1 = .device ∨ l2 = .device then HYPRE_ExecutionPolicy.device else exec
  exec

/-- The first-match dispatch chain of `hypre_Memcpy_core`
(memory.c:639-809), one `if` per source comment block, in source order;
`none` is the fall-through to `hypre_WrongMemoryLocation()`. -/
def memcpyDispatch (loc_dst loc_src : hypre_MemoryLocation) : Option CopyKind :=
  if loc_dst ≠ .device ∧ loc_dst ≠ .unified ∧
     loc_src ≠ .device ∧ loc_src ≠ .unified then
    some .localCopy
  else if (loc_dst = .unified ∧ loc_src = .device) ∨
          (loc_dst = .device ∧ loc_src = .unified) ∨
          (loc_dst = .unified ∧ loc_src = .unified) then
    some .deviceToDevice
  else if loc_dst = .unified then
    some .hostToDevice
  else if loc_src = .unified then
    some .deviceToHost
  else if loc_dst = .device ∧ (loc_src = .host ∨ loc_src = .hostPinned) then
    some .hostToDevice
  else if (loc_dst = .host ∨ loc_dst = .hostPinned) ∧ loc_src = .device then
    some .deviceToHost
  else if loc_dst = .device ∧ loc_src = .device then
    some .deviceToDevice
  else
    none

/-- `hypre_Memcpy_core` (memory.c:604-810): early outs for `size == 0`,
a null pointer (warning printed; the `hypre_assert(0)` beside it is
compiled out in the performance build), and `dst == src`; then the
16-case dispatch.  The fall-through calls `hypre_WrongMemoryLocation()`,
which in the performance build records the diagnostic and returns. -/
def hypre_Memcpy_core (h : Heap) (dst src : Nat) (size : Nat)
    (loc_dst loc_src : hypre_MemoryLocation) : Heap × List Event :=
  if size = 0 then
    (h, [])
  else if dst = 0 ∨ src = 0 then
    (h, [.warnNullCopy size])
  else if dst = src then
    (h, [])
  else
    match memcpyDispatch loc_dst loc_src with
    | some kind => (copyBytes h dst src size, [.transfer kind dst src size])
    | none => (h, [.wrongLocationDiag])

/-- `hypre_MAlloc_core` (memory.c:415-450).  `allocOk loc size` abstracts
whether the selected backend allocator (native, user callback, or pool)
returns a non-null pointer; `zeroinit` selects the `calloc`/memset-zero
variants.  Size `0` returns `NULL` before any dispatch; the `default:`
branch of the `switch` records the wrong-location diagnostic and leaves
`ptr` null, so it falls into the same
`hypre_OutOfMemory(size); hypre_MPI_Abort(...)` exit as a failed backend. -/
def hypre_MAlloc_core (allocOk : hypre_MemoryLocation → Nat → Bool) (h : Heap)
    (size : Nat) (zeroinit : Bool) (location : hypre_MemoryLocation) :
    Heap × List Event × Outcome Nat :=
  if size = 0 then
    (h, [], Outcome.ok 0)
  else if location = .undefined then
    (h, [.wrongLocationDiag, .oomDiagnostic size, .mpiAbort], Outcome.aborted)
  else if allocOk location size then
    (⟨(h.next + 1,
       ⟨location, if zeroinit then List.replicate size (some 0)
                  else List.replicate size none⟩) :: h.blocks, h.next + 1⟩,
     [.backendAlloc location size zeroinit], Outcome.ok (h.next + 1))
  else
    (h, [.backendAlloc location size zeroinit, .oomDiagnostic size, .mpiAbort],
     Outcome.aborted)

/-- `hypre_Free_core` (memory.c:565-592): `NULL` is a no-op; a valid
location dispatches to the backend free; the `default:` branch records the
wrong-location diagnostic and frees nothing. -/
def hypre_Free_core (h : Heap) (ptr : Nat) (location : hypre_MemoryLocation) :
    Heap × List Event :=
  if ptr = 0 then
    (h, [])
  else if location = .undefined then
    (h, [.wrongLocationDiag])
  else
    (h.removeBlock ptr, [.backendFree ptr location])

/-- `hypre_ReAlloc` (memory.c:996-1030): size `0` frees and returns `NULL`;
a null pointer behaves as `hypre_MAlloc`; a non-`HOST` location prints a
message and calls `hypre_MPI_Abort`; otherwise the native
`realloc`/pooled-realloc runs (`reallocOk size` abstracts whether it
returns non-null; on success the block keeps its address and is
truncated/extended, new bytes uninitialized).  When the native realloc
yields `NULL`, the code only calls `hypre_OutOfMemory(size)` and then
returns the null `ptr` — there is no abort on that path. -/
def hypre_ReAlloc (allocOk : hypre_MemoryLocation → Nat → Bool)
    (reallocOk : Nat → Bool) (h : Heap) (ptr size : Nat)
    (location : hypre_MemoryLocation) : Heap × List Event × Outcome Nat :=
  if size = 0 then
    ((hypre_Free_core h ptr location).1, (hypre_Free_core h ptr location).2,
     Outcome.ok 0)
  else if ptr = 0 then
    hypre_MAlloc_core allocOk h size false location
  else if location ≠ .host then
    (h, [.hostOnlyReallocDiag, .mpiAbort], Outcome.aborted)
  else if reallocOk size then
    match h.lookup ptr with
    | some b =>
      (h.setBlock ptr ⟨b.loc, b.data.take size ++
         List.replicate (size - b.data.length) none⟩,
       [.backendRealloc ptr size], Outcome.ok ptr)
    | none => (h, [.backendRealloc ptr size], Outcome.ok ptr)
  else
    (h, [.backendRealloc ptr size, .oomDiagnostic size], Outcome.ok 0)

/-- `hypre_ReAlloc_v2` (memory.c:1032-1063): size `0` frees and returns
`NULL`; a null pointer behaves as `hypre_MAlloc`; equal sizes return the
pointer unchanged; otherwise allocate fresh (no zero-fill), copy
`smaller_size = min` bytes through the copy engine, free the old block and
return the new pointer.  A failed inner `hypre_MAlloc` has already aborted
the process, and the trailing `if (!ptr)` check mirrors the source. -/
def hypre_ReAlloc_v2 (allocOk : hypre_MemoryLocation → Nat → Bool) (h : Heap)
    (ptr old_size new_size : Nat) (location : hypre_MemoryLocation) :
    Heap × List Event × Outcome Nat :=
  if new_size = 0 then
    ((hypre_Free_core h ptr location).1, (hypre_Free_core h ptr location).2,
     Outcome.ok 0)
  else if ptr = 0 then
    hypre_MAlloc_core allocOk h new_size false location
  else if old_size = new_size then
    (h, [], Outcome.ok ptr)
  else
    match hypre_MAlloc_core allocOk h new_size false location with
    | (h1, e1, Outcome.aborted) => (h1, e1, Outcome.aborted)
    | (h1, e1, Outcome.ok new_ptr) =>
      let smaller_size := if new_size > old_size then old_size else new_size
      let r2 := hypre_Memcpy_core h1 new_ptr ptr smaller_size location location
      let r3 := hypre_Free_core r2.1 ptr location
      if new_ptr = 0 then
        (r3.1, e1 ++ r2.2 ++ r3.2 ++ [Event.oomDiagnostic new_size], Outcome.ok 0)
      else
        (r3.1, e1 ++ r2.2 ++ r3.2, Outcome.ok new_ptr)

/-! ### Helper lemmas about the heap model -/

/-- A successful lookup names an entry of the block list. -/
theorem findBlock_some_mem {l : List (Nat × Block)} {p : Nat} {b : Block}
    (hf : findBlock l p = some b) : (p, b) ∈ l := by
  induction l with
  | nil => exact absurd hf (by simp [findBlock])
  | cons q qs ih =>
    rw [findBlock] at hf
    by_cases hq : q.1 = p
    · rw [if_pos hq] at hf
      have hqb : q = (p, b) := by
        obtain ⟨q1, q2⟩ := q
        simp only at hq
        injection hf with hf2
        simp only at hf2
        simp [hq, hf2]
      simp [hqb]
    · rw [if_neg hq] at hf
      exact List.mem_cons_of_mem _ (ih hf)

/-- In a well-formed heap, every live address is at most the high-water mark. -/
theorem Heap.wf_lookup_le {h : Heap} {p : Nat} {b : Block}
    (hwf : h.wf) (hl : h.lookup p = some b) : p ≤ h.next :=
  hwf (p, b) (findBlock_some_mem hl)

/-- Overwriting an absent address leaves the block list unchanged. -/
theorem setEntry_of_forall_ne {l : List (Nat × Block)} {p : Nat} {b : Block}
    (hp : ∀ q ∈ l, q.1 ≠ p) : setEntry l p b = l := by
  induction l with
  | nil => rfl
  | cons q qs ih =>
    rw [setEntry, if_neg (hp q (List.mem_cons_self q qs))]
    rw [ih fun r hr => hp r (List.mem_cons_of_mem q hr)]

/-- Dropping from a replicated list is a shorter replicated list. -/
theorem drop_replicate_eq (n m : Nat) (a : Option Nat) :
    (List.replicate m a).drop n = List.replicate (m - n) a := by
  induction m generalizing n with
  | zero => simp
  | succ m ih =>
    cases n with
    | zero => rfl
    | succ n =>
      rw [List.replicate_succ, List.drop_succ_cons, ih n, Nat.succ_sub_succ]

/-- The copy-engine dispatch succeeds on every pair of recognized locations
(shared by the exhaustiveness claim and the reallocation proofs). -/
theorem memcpyDispatch_total (a b : hypre_MemoryLocation)
    (ha : a ≠ .undefined) (hb : b ≠ .undefined) :
    (memcpyDispatch a b).isSome = true := by
  revert ha hb; revert a b; decide

/-- Unfolding of a successful `hypre_MAlloc_core`: a fresh block at the new
high-water address. -/
theorem malloc_core_success (allocOk : hypre_MemoryLocation → Nat → Bool)
    (h : Heap) (size : Nat) (zeroinit : Bool) (loc : hypre_MemoryLocation)
    (hs : size ≠ 0) (hl : loc ≠ .undefined) (hok : allocOk loc size = true) :
    hypre_MAlloc_core allocOk h size zeroinit loc =
      (⟨(h.next + 1,
         ⟨loc, if zeroinit then List.replicate size (some 0)
               else List.replicate size none⟩) :: h.blocks, h.next + 1⟩,
       [Event.backendAlloc loc size zeroinit], Outcome.ok (h.next + 1)) := by
  simp [hypre_MAlloc_core, hs, hl, hok]

/-- `copyBytes` into a freshly pushed block reads the old block unchanged
and merges its prefix into the fresh one. -/
theorem copyBytes_fresh (h : Heap) (blk bnew : Block) (ptr n : Nat)
    (hwf : h.wf) (hlk : h.lookup ptr = some blk) :
    copyBytes ⟨(h.next + 1, bnew) :: h.blocks, h.next + 1⟩ (h.next + 1) ptr n =
      ⟨(h.next + 1, ⟨bnew.loc, blk.data.take n ++ bnew.data.drop n⟩) :: h.blocks,
       h.next + 1⟩ := by
  have hle : ptr ≤ h.next := Heap.wf_lookup_le hwf hlk
  have hne : h.next + 1 ≠ ptr := by omega
  have hsrc : findBlock ((h.next + 1, bnew) :: h.blocks) ptr = some blk := by
    rw [findBlock, if_neg hne]; exact hlk
  have hdst : findBlock ((h.next + 1, bnew) :: h.blocks) (h.next + 1) = some bnew := by
    rw [findBlock, if_pos rfl]
  have hset : setEntry h.blocks (h.next + 1)
      ⟨bnew.loc, blk.data.take n ++ bnew.data.drop n⟩ = h.blocks :=
    setEntry_of_forall_ne fun q hq => by
      have := hwf q hq; omega
  simp only [copyBytes, Heap.lookup, hsrc, hdst, Heap.setBlock, setEntry, hset]
  simp

/-- Equal-size early return of `hypre_ReAlloc_v2` (shared helper). -/
theorem reAllocV2_eq_size (allocOk : hypre_MemoryLocation → Nat → Bool)
    (h : Heap) (ptr s : Nat) (loc : hypre_MemoryLocation)
    (hp : ptr ≠ 0) (hs : s ≠ 0) :
    hypre_ReAlloc_v2 allocOk h ptr s s loc = (h, [], Outcome.ok ptr) := by
  simp [hypre_ReAlloc_v2, hp, hs]

/-! ### Claims about the execution-policy resolvers -/

/-- C1 counterexample: contrary to the claim, the binary resolver applied
to `(Host, Device)` and `(Device, Host)` returns `Device`, not the fatal
`Undefined` condition: the final device-wins `if` of the source overrides
the earlier `exec = HYPRE_EXEC_UNDEFINED` assignment (shown here at the
concrete configuration `gpu = true`, default policy `Device`). -/
theorem getExecPolicy2_mixed_counterexample :
    hypre_GetExecPolicy2_core true .device .host .device = .device ∧
    hypre_GetExecPolicy2_core true .device .device .host = .device ∧
    HYPRE_ExecutionPolicy.device ≠ HYPRE_ExecutionPolicy.undefined := by
  decide

/-- C1 (amended): for every build flag and configured default policy, the
binary resolver maps the mixed pairs `(Host, Device)` and `(Device, Host)`
(with `HostPinned` treated as `Host`) to `Device`: the "no policy for these
combinations" assignment to `Undefined` is overridden by the later
unconditional host-wins and device-wins assignments, so the mixed pair
resolves to `Device` and the `exec != HYPRE_EXEC_UNDEFINED` assertion does
not fire. -/
theorem getExecPolicy2_mixed_resolves_device :
    ∀ (gpu : Bool) (dflt : HYPRE_ExecutionPolicy),
      hypre_GetExecPolicy2_core gpu dflt .host .device = .device ∧
      hypre_GetExecPolicy2_core gpu dflt .device .host = .device ∧
      hypre_GetExecPolicy2_core gpu dflt .hostPinned .device = .device ∧
      hypre_GetExecPolicy2_core gpu dflt .device .hostPinned = .device := by
  decide

/-- C9: the binary execution-policy resolver is commutative for every pair
of memory locations, including `Undefined` and mixed pairs, under every
build flag and configured default policy. -/
theorem getExecPolicy2_comm :
    ∀ (gpu : Bool) (dflt : HYPRE_ExecutionPolicy)
      (a b : hypre_MemoryLocation),
      hypre_GetExecPolicy2_core gpu dflt a b =
        hypre_GetExecPolicy2_core gpu dflt b a := by
  decide

/-- C6: in an accelerator build with a configured (non-`Undefined`)
default execution policy, the unary resolver maps `Host` and `HostPinned`
to `Host`, `Device` to `Device`, `Unified` to the configured default, and
returns a non-`Undefined` policy for every valid location. -/
theorem getExecPolicy1_spec :
    ∀ (dflt : HYPRE_ExecutionPolicy), dflt ≠ .undefined →
      hypre_GetExecPolicy1_core true dflt .host = .host ∧
      hypre_GetExecPolicy1_core true dflt .hostPinned = .host ∧
      hypre_GetExecPolicy1_core true dflt .device = .device ∧
      hypre_GetExecPolicy1_core true dflt .unified = dflt ∧
      ∀ loc, loc ≠ .undefined →
        hypre_GetExecPolicy1_core true dflt loc ≠ .undefined := by
  decide

/-- Witness for C6 at the concrete default policy `Device`. -/
theorem getExecPolicy1_spec_witness :
    HYPRE_ExecutionPolicy.device ≠ HYPRE_ExecutionPolicy.undefined ∧
    (hypre_GetExecPolicy1_core true .device .host = .host ∧
     hypre_GetExecPolicy1_core true .device .hostPinned = .host ∧
     hypre_GetExecPolicy1_core true .device .device = .device ∧
     hypre_GetExecPolicy1_core true .device .unified = .device ∧
     ∀ loc, loc ≠ .undefined →
       hypre_GetExecPolicy1_core true .device loc ≠ .undefined) :=
  ⟨by decide, getExecPolicy1_spec .device (by decide)⟩

/-! ### Claims about the allocation router -/

/-- C7: for every location (the sentinel included) and every zero-fill
flag, a size-`0` allocation request returns the null pointer, emits no
event (no backend call, no out-of-memory diagnostic) and does not abort. -/
theorem malloc_zero_size_returns_null :
    ∀ (allocOk : hypre_MemoryLocation → Nat → Bool) (h : Heap)
      (zeroinit : Bool) (loc : hypre_MemoryLocation),
      hypre_MAlloc_core allocOk h 0 zeroinit loc = (h, [], Outcome.ok 0) := by
  intro allocOk h zeroinit loc
  simp [hypre_MAlloc_core]

/-! ### Claims about the copy engine -/

/-- C3: for every pair of locations and non-zero size, a copy with a null
source or destination prints the warning, leaves the heap untouched, emits
no transfer or fatal diagnostic, and returns normally. -/
theorem memcpy_null_warn_noop :
    ∀ (h : Heap) (dst src size : Nat) (a b : hypre_MemoryLocation),
      size ≠ 0 → (dst = 0 ∨ src = 0) →
      hypre_Memcpy_core h dst src size a b = (h, [Event.warnNullCopy size]) := by
  intro h dst src size a b hs hn
  simp [hypre_Memcpy_core, hs, hn]

/-- Witness for C3: a null destination with size `4`. -/
theorem memcpy_null_warn_noop_witness :
    (4 : Nat) ≠ 0 ∧
    hypre_Memcpy_core ⟨[], 0⟩ 0 2 4 .host .device =
      (⟨[], 0⟩, [Event.warnNullCopy 4]) :=
  ⟨by decide, memcpy_null_warn_noop ⟨[], 0⟩ 0 2 4 .host .device
    (by decide) (Or.inl rfl)⟩

/-- C8: a copy with `size == 0`, or with `dst == src` at any size, leaves
the heap unchanged and invokes no transfer primitive. -/
theorem memcpy_noop_cases :
    ∀ (h : Heap) (dst src size : Nat) (a b : hypre_MemoryLocation),
      size = 0 ∨ dst = src →
      (hypre_Memcpy_core h dst src size a b).1 = h ∧
      ∀ e ∈ (hypre_Memcpy_core h dst src size a b).2, e.isTransfer = false := by
  intro h dst src size a b hc
  by_cases hs : size = 0
  · simp [hypre_Memcpy_core, hs]
  · have hds : dst = src := hc.resolve_left hs
    by_cases hn : dst = 0 ∨ src = 0
    · simp [hypre_Memcpy_core, hs, hn, Event.isTransfer]
    · subst hds
      have h0 : dst ≠ 0 := fun h0 => hn (Or.inl h0)
      simp [hypre_Memcpy_core, hs, h0]

/-- Witness for C8 at `dst = src = 1`, size `4`. -/
theorem memcpy_noop_cases_witness :
    ((4 : Nat) = 0 ∨ (1 : Nat) = 1) ∧
    ((hypre_Memcpy_core ⟨[], 0⟩ 1 1 4 .host .device).1 = ⟨[], 0⟩ ∧
     ∀ e ∈ (hypre_Memcpy_core ⟨[], 0⟩ 1 1 4 .host .device).2,
       e.isTransfer = false) :=
  ⟨Or.inr rfl, memcpy_noop_cases ⟨[], 0⟩ 1 1 4 .host .device (Or.inr rfl)⟩

/-- C5: for every pair of recognized locations and non-null, distinct
pointers with non-zero size, the first-match dispatch selects exactly one
transfer case, and the run emits that single transfer (the
"Unrecognized hypre_MemoryLocation" fall-through is not reached). -/
theorem memcpy_dispatch_exhaustive :
    ∀ (h : Heap) (dst src size : Nat) (a b : hypre_MemoryLocation),
      a ≠ .undefined → b ≠ .undefined → dst ≠ 0 → src ≠ 0 → dst ≠ src →
      size ≠ 0 →
      ∃ k, memcpyDispatch a b = some k ∧
        hypre_Memcpy_core h dst src size a b =
          (copyBytes h dst src size, [Event.transfer k dst src size]) := by
  intro h dst src size a b ha hb hd hsrc hds hs
  obtain ⟨k, hk⟩ := Option.isSome_iff_exists.mp (memcpyDispatch_total a b ha hb)
  refine ⟨k, hk, ?_⟩
  have hnull : ¬(dst = 0 ∨ src = 0) := by
    rintro (h0 | h0) <;> [exact hd h0; exact hsrc h0]
  simp [hypre_Memcpy_core, hs, hnull, hds, hk]

/-- Witness for C5 at the pair `(Host, Device)` with pointers `1 ≠ 2`. -/
theorem memcpy_dispatch_exhaustive_witness :
    ∃ k, memcpyDispatch .host .device = some k ∧
      hypre_Memcpy_core ⟨[], 0⟩ 1 2 4 .host .device =
        (copyBytes ⟨[], 0⟩ 1 2 4, [Event.transfer k 1 2 4]) :=
  memcpy_dispatch_exhaustive ⟨[], 0⟩ 1 2 4 .host .device
    (by decide) (by decide) (by decide) (by decide) (by decide) (by decide)

/-! ### Claims about reallocation -/

/-- C10: reallocating a non-null pointer to the same non-zero size returns
the original pointer with the heap untouched and no backend event at all
(no allocation, no copy, no free). -/
theorem reAlloc_v2_same_size_identity :
    ∀ (allocOk : hypre_MemoryLocation → Nat → Bool) (h : Heap) (ptr s : Nat)
      (loc : hypre_MemoryLocation), ptr ≠ 0 → s ≠ 0 →
      hypre_ReAlloc_v2 allocOk h ptr s s loc = (h, [], Outcome.ok ptr) :=
  fun allocOk h ptr s loc hp hs => reAllocV2_eq_size allocOk h ptr s loc hp hs

/-- Witness for C10 at pointer `1`, size `8`. -/
theorem reAlloc_v2_same_size_identity_witness :
    (1 : Nat) ≠ 0 ∧
    hypre_ReAlloc_v2 (fun _ _ => true)
        ⟨[(1, ⟨.host, List.replicate 8 (some 0)⟩)], 1⟩ 1 8 8 .host =
      (⟨[(1, ⟨.host, List.replicate 8 (some 0)⟩)], 1⟩, [], Outcome.ok 1) :=
  ⟨by decide, reAlloc_v2_same_size_identity (fun _ _ => true)
    ⟨[(1, ⟨.host, List.replicate 8 (some 0)⟩)], 1⟩ 1 8 .host
    (by decide) (by decide)⟩

/-- C4 counterexample: when the native `realloc` of `hypre_ReAlloc` yields
null (here: a failing realloc backend, pointer `1`, size `64`), the code
reports the out-of-memory diagnostic but does NOT terminate: it returns
normally with the null pointer, so the "same fatal treatment" part of the
claim is false. -/
theorem reAlloc_oom_nonfatal_counterexample :
    hypre_ReAlloc (fun _ _ => true) (fun _ => false)
        ⟨[(1, ⟨.host, List.replicate 8 (some 0)⟩)], 1⟩ 1 64 .host =
      (⟨[(1, ⟨.host, List.replicate 8 (some 0)⟩)], 1⟩,
       [Event.backendRealloc 1 64, Event.oomDiagnostic 64], Outcome.ok 0) ∧
    (Outcome.ok (0 : Nat) ≠ Outcome.aborted) := by
  decide

/-- C4 (amended): for a non-zero size and a valid location, a failing
backend allocator makes `hypre_MAlloc_core` report the out-of-memory
diagnostic carrying the requested size and abort the process, and a
successful allocation never returns the null pointer; the native-realloc
path of `hypre_ReAlloc`, by contrast, reports the same out-of-memory
diagnostic when the backend realloc yields null but does not terminate —
it returns the null pointer to the caller. -/
theorem malloc_oom_fatal_realloc_oom_returns_null :
    (∀ (allocOk : hypre_MemoryLocation → Nat → Bool) (h : Heap)
       (size : Nat) (zeroinit : Bool) (loc : hypre_MemoryLocation),
       size ≠ 0 → loc ≠ .undefined → allocOk loc size = false →
       hypre_MAlloc_core allocOk h size zeroinit loc =
         (h, [Event.backendAlloc loc size zeroinit, Event.oomDiagnostic size,
              Event.mpiAbort], Outcome.aborted)) ∧
    (∀ (allocOk : hypre_MemoryLocation → Nat → Bool) (h : Heap)
       (size : Nat) (zeroinit : Bool) (loc : hypre_MemoryLocation) (p : Nat),
       size ≠ 0 →
       (hypre_MAlloc_core allocOk h size zeroinit loc).2.2 = Outcome.ok p →
       p ≠ 0) ∧
    (∀ (allocOk : hypre_MemoryLocation → Nat → Bool) (reallocOk : Nat → Bool)
       (h : Heap) (ptr size : Nat),
       ptr ≠ 0 → size ≠ 0 → reallocOk size = false →
       hypre_ReAlloc allocOk reallocOk h ptr size .host =
         (h, [Event.backendRealloc ptr size, Event.oomDiagnostic size],
          Outcome.ok 0)) := by
  refine ⟨?_, ?_, ?_⟩
  · intro allocOk h size zeroinit loc hs hl hfail
    simp [hypre_MAlloc_core, hs, hl, hfail]
  · intro allocOk h size zeroinit loc p hs hok
    by_cases hl : loc = .undefined
    · simp [hypre_MAlloc_core, hs, hl] at hok
    · by_cases hal : allocOk loc size
      · simp [hypre_MAlloc_core, hs, hl, hal] at hok
        omega
      · simp [hypre_MAlloc_core, hs, hl, hal] at hok
  · intro allocOk reallocOk h ptr size hp hs hfail
    simp [hypre_ReAlloc, hs, hp, hfail]

/-- Witness for C4 at concrete failing backends, size `8`. -/
theorem malloc_oom_fatal_realloc_oom_returns_null_witness :
    ((8 : Nat) ≠ 0) ∧
    (hypre_MAlloc_core (fun _ _ => false) ⟨[], 0⟩ 8 false .device =
       (⟨[], 0⟩, [Event.backendAlloc .device 8 false, Event.oomDiagnostic 8,
        Event.mpiAbort], Outcome.aborted)) ∧
    ((1 : Nat) ≠ 0) ∧
    (hypre_ReAlloc (fun _ _ => true) (fun _ => false) ⟨[], 0⟩ 1 8 .host =
       (⟨[], 0⟩, [Event.backendRealloc 1 8, Event.oomDiagnostic 8],
        Outcome.ok 0)) :=
  ⟨by decide,
   malloc_oom_fatal_realloc_oom_returns_null.1 (fun _ _ => false) ⟨[], 0⟩ 8
     false .device (by decide) (by decide) rfl,
   malloc_oom_fatal_realloc_oom_returns_null.2.1 (fun _ _ => true) ⟨[], 0⟩ 8
     false .host 1 (by decide) rfl,
   malloc_oom_fatal_realloc_oom_returns_null.2.2 (fun _ _ => true)
     (fun _ => false) ⟨[], 0⟩ 1 8 (by decide) (by decide) rfl⟩

/-- C2 counterexample: with equal non-zero old and new sizes (pointer `1`,
size `8`), `hypre_ReAlloc_v2` returns the original pointer with an empty
event trace — nothing is allocated, copied or freed — contradicting the
claim's "otherwise it allocates fresh memory ... and returns the new
pointer". -/
theorem reAlloc_v2_equal_size_counterexample :
    hypre_ReAlloc_v2 (fun _ _ => true)
        ⟨[(1, ⟨.host, List.replicate 8 (some 0)⟩)], 1⟩ 1 8 8 .host =
      (⟨[(1, ⟨.host, List.replicate 8 (some 0)⟩)], 1⟩, [], Outcome.ok 1) := by
  decide

/-- C2 (amended): `hypre_ReAlloc_v2` (i) with `new_size = 0` frees the
pointer and returns null; (ii) with a null pointer behaves exactly as
`hypre_MAlloc_core` with no zero-fill; (iii) with equal non-zero sizes
returns the original pointer unchanged, performing nothing; (iv) otherwise
— `old_size ≠ new_size`, backing block of length `old_size`, succeeding
backend — it allocates a fresh block of `new_size` at the location, copies
`min(old_size, new_size)` bytes of the old data into it through the copy
engine, frees the old block, and returns the fresh pointer. -/
theorem reAlloc_v2_spec_amended :
    (∀ (allocOk : hypre_MemoryLocation → Nat → Bool) (h : Heap)
       (ptr old_size : Nat) (loc : hypre_MemoryLocation),
       hypre_ReAlloc_v2 allocOk h ptr old_size 0 loc =
         ((hypre_Free_core h ptr loc).1, (hypre_Free_core h ptr loc).2,
          Outcome.ok 0)) ∧
    (∀ (allocOk : hypre_MemoryLocation → Nat → Bool) (h : Heap)
       (old_size new_size : Nat) (loc : hypre_MemoryLocation),
       hypre_ReAlloc_v2 allocOk h 0 old_size new_size loc =
         hypre_MAlloc_core allocOk h new_size false loc) ∧
    (∀ (allocOk : hypre_MemoryLocation → Nat → Bool) (h : Heap)
       (ptr s : Nat) (loc : hypre_MemoryLocation), ptr ≠ 0 → s ≠ 0 →
       hypre_ReAlloc_v2 allocOk h ptr s s loc = (h, [], Outcome.ok ptr)) ∧
    (∀ (allocOk : hypre_MemoryLocation → Nat → Bool) (h : Heap)
       (ptr old_size new_size : Nat) (loc : hypre_MemoryLocation) (blk : Block),
       ptr ≠ 0 → new_size ≠ 0 → old_size ≠ new_size → loc ≠ .undefined →
       allocOk loc new_size = true → Heap.wf h → h.lookup ptr = some blk →
       blk.data.length = old_size →
       hypre_ReAlloc_v2 allocOk h ptr old_size new_size loc =
         (⟨(h.next + 1,
            ⟨loc, blk.data.take (min new_size old_size) ++
              List.replicate (new_size - min new_size old_size) none⟩) ::
            removeEntry h.blocks ptr, h.next + 1⟩,
          [Event.backendAlloc loc new_size false] ++
            (if min new_size old_size = 0 then []
             else [Event.transfer ((memcpyDispatch loc loc).getD .localCopy)
                     (h.next + 1) ptr (min new_size old_size)]) ++
            [Event.backendFree ptr loc],
          Outcome.ok (h.next + 1))) := by
  refine ⟨?_, ?_, ?_, ?_⟩
  · intro allocOk h ptr old_size loc
    simp [hypre_ReAlloc_v2]
  · intro allocOk h old_size new_size loc
    by_cases hn : new_size = 0
    · simp [hypre_ReAlloc_v2, hypre_Free_core, hypre_MAlloc_core, hn]
    · simp [hypre_ReAlloc_v2, hn]
  · intro allocOk h ptr s loc hp hs
    exact reAllocV2_eq_size allocOk h ptr s loc hp hs
  · intro allocOk h ptr old_size new_size loc blk hp hn hne hl hok hwf hlk hlen
    have hle : ptr ≤ h.next := Heap.wf_lookup_le hwf hlk
    have hpne : h.next + 1 ≠ ptr := by omega
    have hmin : (if old_size < new_size then old_size else new_size) =
        min new_size old_size := by
      rcases Nat.lt_or_ge old_size new_size with hlt | hge
      · rw [if_pos hlt, min_eq_right (Nat.le_of_lt hlt)]
      · rw [if_neg (by omega), min_eq_left hge]
    have hm : hypre_MAlloc_core allocOk h new_size false loc =
        (⟨(h.next + 1, ⟨loc, List.replicate new_size none⟩) :: h.blocks,
          h.next + 1⟩,
         [Event.backendAlloc loc new_size false], Outcome.ok (h.next + 1)) := by
      simpa using malloc_core_success allocOk h new_size false loc hn hl hok
    unfold hypre_ReAlloc_v2
    rw [if_neg hn, if_neg hp, if_neg hne, hm]
    dsimp only
    rw [show (if new_size > old_size then old_size else new_size) =
          min new_size old_size from hmin]
    by_cases hsm : min new_size old_size = 0
    · -- zero bytes to copy: the copy engine returns before any transfer
      have htk : blk.data.take (min new_size old_size) = [] := by
        rw [hsm, List.take_zero]
      rw [hsm]
      simp only [hypre_Memcpy_core, if_pos rfl]
      simp [hypre_Free_core, hp, hl, Heap.removeBlock, removeEntry, hpne,
        htk, hsm, Nat.succ_ne_zero]
    · -- a real transfer: dispatch for the (loc, loc) pair, then copyBytes
      obtain ⟨k, hk⟩ :=
        Option.isSome_iff_exists.mp (memcpyDispatch_total loc loc hl hl)
      have hnull : ¬(h.next + 1 = 0 ∨ ptr = 0) := by
        rintro (h0 | h0)
        · omega
        · exact hp h0
      have hmem : hypre_Memcpy_core
          ⟨(h.next + 1, ⟨loc, List.replicate new_size none⟩) :: h.blocks,
           h.next + 1⟩ (h.next + 1) ptr (min new_size old_size) loc loc =
          (copyBytes
            ⟨(h.next + 1, ⟨loc, List.replicate new_size none⟩) :: h.blocks,
             h.next + 1⟩ (h.next + 1) ptr (min new_size old_size),
           [Event.transfer k (h.next + 1) ptr (min new_size old_size)]) := by
        simp [hypre_Memcpy_core, hsm, hnull, hpne, hk, hp]
      have hcb := copyBytes_fresh h blk ⟨loc, List.replicate new_size none⟩
        ptr (min new_size old_size) hwf hlk
      rw [hmem]
      dsimp only
      rw [hcb]
      simp [hypre_Free_core, hp, hl, Heap.removeBlock, removeEntry, hpne,
        drop_replicate_eq, hk, hsm, Nat.succ_ne_zero]

/-- Witness for C2: growing a 2-byte host block to 4 bytes copies both
old bytes into the fresh block at address `2`, frees block `1`, and leaves
the new tail uninitialized. -/
theorem reAlloc_v2_spec_amended_witness :
    ((1 : Nat) ≠ 0) ∧
    hypre_ReAlloc_v2 (fun _ _ => true)
        ⟨[(1, ⟨.host, [some 5, some 6]⟩)], 1⟩ 1 2 4 .host =
      (⟨[(2, ⟨.host, [some 5, some 6, none, none]⟩)], 2⟩,
       [Event.backendAlloc .host 4 false, Event.transfer .localCopy 2 1 2,
        Event.backendFree 1 .host], Outcome.ok 2) :=
  ⟨by decide,
   by
     have happ := reAlloc_v2_spec_amended.2.2.2 (fun _ _ => true)
       ⟨[(1, ⟨.host, [some 5, some 6]⟩)], 1⟩ 1 2 4 .host
       ⟨.host, [some 5, some 6]⟩ (by decide) (by decide) (by decide)
       (by decide) rfl (by decide) rfl rfl
     exact happ⟩

end Hypre
